import Mathlib

/-!
Shallow embedding of the ARQ transport entities of `src/transport/part1.py`
and `src/transport/part2.py` (Kurose alternating-bit / go-back-N simulator
assignment code).

Modelling conventions:
* Python `int` packet header fields `seqnum`/`acknum` are modelled as `Nat`
  (they are non-negative in every packet the code constructs); the
  `checksum` field is an `Int`, because Python's `~` on an arbitrary
  precision integer produces a negative number.
* A 20-byte payload is a `List Nat` of byte values.
* The side-effecting student-callable functions `to_layer3`, `to_layer5`,
  `start_timer`, `stop_timer` are modelled as an `Event` trace emitted by
  each operation; entity state is passed explicitly.
* `unackPkt.pop(0)` on an empty list raises `IndexError` in Python, so the
  sender's `recv` is modelled as returning `Option` (`none` = exception).
* The two files `part1.py` and `part2.py` are identical (up to `print`
  tracing, which is not modelled) in `append_ints`, `calc_checksum`,
  `SndTransport.__init__/inc_nfi/next_lar/check_send/send/check_rec` and in
  all of `RcvTransport`; those are defined once.  `SndTransport.recv` and
  `SndTransport.timer_interrupt` differ between the two files and are
  embedded separately as `recv1`/`recv2` and
  `timer_interrupt1`/`timer_interrupt2`.
-/

/-- A layer-5 message: a fixed-size opaque byte payload (`Msg` in the source). -/
structure Msg where
  data : List Nat
deriving DecidableEq

/-- A packet as exchanged over the channel (`Pkt` in the source). -/
structure Pkt where
  seqnum : Nat
  acknum : Nat
  checksum : Int
  payload : List Nat
deriving DecidableEq

/-- Source `append_ints(num1, num2) = (num1 << 8) | num2`. -/
def append_ints (num1 num2 : Nat) : Nat := (num1 <<< 8) ||| num2

/-- One step of the source's end-around-carry normalisation:
`if sum & 0xFFFF0000: sum &= 0xFFFF; sum += 1`. -/
def carry_fold (s : Nat) : Nat :=
  if s &&& 0xFFFF0000 ≠ 0 then (s &&& 0xFFFF) + 1 else s

/-- One loop iteration of `calc_checksum`: add a payload byte, then apply the
carry normalisation. -/
def ocAdd (s b : Nat) : Nat := carry_fold (s + b)

/-- Source `calc_checksum(pkt)`.  The while loop runs for integer `index`
with `index < len(payload)/2` (Python true division), i.e. for
`⌈len(payload)/2⌉` iterations, adding the consecutive bytes
`payload[0] .. payload[⌈len/2⌉-1]`.  The return value is Python's `~` of the
16-bit sum, i.e. the negative integer `-(sum & 0xFFFF) - 1`. -/
def calc_checksum (pkt : Pkt) : Int :=
  let s0 := carry_fold (append_ints pkt.seqnum pkt.acknum)
  let count := (pkt.payload.length + 1) / 2
  let s1 := (pkt.payload.take count).foldl ocAdd s0
  Int.neg (((s1 &&& 0xFFFF : Nat) : Int) + 1)

/-- Observable effects of one entity operation, in emission order. -/
inductive Event where
  | toLayer3 (p : Pkt)
  | toLayer5 (m : Msg)
  | startTimer (t : Nat)
  | stopTimer
deriving DecidableEq

/-- Sender state (`SndTransport.__init__` instance fields). -/
structure SndTransport where
  window_size : Nat
  seqnum_limit : Nat
  last_ack_rec : Int
  next_frame_index : Nat
  unackPkt : List Pkt
  timeout_val : Nat
deriving DecidableEq

/-- Source `SndTransport.__init__(seqnum_limit, timeout_val, window_size)`:
plain field assignment, no validation of any kind. -/
def SndTransport.init (seqnum_limit timeout_val window_size : Nat) : SndTransport :=
  { window_size := window_size
    seqnum_limit := seqnum_limit
    last_ack_rec := -1
    next_frame_index := 0
    unackPkt := []
    timeout_val := timeout_val }

/-- Source `inc_nfi`: increment `next_frame_index`, wrapping at `seqnum_limit`. -/
def SndTransport.inc_nfi (s : SndTransport) : SndTransport :=
  if s.next_frame_index < s.seqnum_limit - 1 then
    { s with next_frame_index := s.next_frame_index + 1 }
  else
    { s with next_frame_index := 0 }

/-- Source `next_lar`: incremented `last_ack_rec`, wrapping at `seqnum_limit`. -/
def SndTransport.next_lar (s : SndTransport) : Int :=
  if s.last_ack_rec < (s.seqnum_limit : Int) - 1 then s.last_ack_rec + 1 else 0

/-- Source `check_send`: room left in the window. -/
def SndTransport.check_send (s : SndTransport) : Bool :=
  s.unackPkt.length < s.window_size

/-- Source `SndTransport.send`(part1 and part2 are identical up to prints):
if `check_send`, build the packet, set its checksum, advance
`next_frame_index`, append to `unackPkt`, emit it to layer 3 and start the
timer; otherwise only print an error (no state change, no emission). -/
def SndTransport.send (s : SndTransport) (message : Msg) : SndTransport × List Event :=
  if s.check_send then
    let pkt0 : Pkt := ⟨s.next_frame_index, s.next_frame_index, 0, message.data⟩
    let pkt : Pkt := { pkt0 with checksum := calc_checksum pkt0 }
    let s1 := s.inc_nfi
    ({ s1 with unackPkt := s1.unackPkt ++ [pkt] },
     [Event.toLayer3 pkt, Event.startTimer s.timeout_val])
  else
    (s, [])

/-- Source `SndTransport.retransmit` (part1): resend every unacked packet and
restart the timer, when there are any.  Pure emission; no state change. -/
def SndTransport.retransmit (s : SndTransport) : List Event :=
  if s.unackPkt.length > 0 then
    s.unackPkt.map Event.toLayer3 ++ [Event.startTimer s.timeout_val]
  else
    []

/-- Source `SndTransport.check_rec` (identical condition in part1 and part2). -/
def SndTransport.check_rec (_s : SndTransport) (pkt : Pkt) : Bool :=
  pkt.acknum == pkt.seqnum && pkt.checksum == calc_checksum pkt

/-- Source `SndTransport.recv` of part1.  `stop_timer` first; on a valid ack
for the expected next sequence number: advance `last_ack_rec`, `pop(0)` the
oldest unacked packet (an `IndexError`, i.e. `none`, when the list is empty)
and deliver the arriving packet's payload to layer 5; on a valid ack with
`seqnum > next_lar()` retransmit; on an invalid packet retransmit. -/
def SndTransport.recv1 (s : SndTransport) (pkt : Pkt) : Option (SndTransport × List Event) :=
  if s.check_rec pkt then
    if (pkt.seqnum : Int) = s.next_lar then
      match s.unackPkt with
      | [] => none
      | _ :: rest =>
        some ({ s with last_ack_rec := s.next_lar, unackPkt := rest },
              [Event.stopTimer, Event.toLayer5 ⟨pkt.payload⟩])
    else if (pkt.seqnum : Int) > s.next_lar then
      some (s, Event.stopTimer :: s.retransmit)
    else
      some (s, [Event.stopTimer])
  else
    some (s, Event.stopTimer :: s.retransmit)

/-- Source `SndTransport.recv` of part2.  Same valid-and-expected branch as
part1 (including the unguarded `pop(0)`); a valid ack whose seqnum is not
the expected one does nothing further; an invalid packet triggers the same
retransmission loop as part1's `retransmit`, inlined and guarded by
`len(self.unackPkt) > 0`. -/
def SndTransport.recv2 (s : SndTransport) (pkt : Pkt) : Option (SndTransport × List Event) :=
  if s.check_rec pkt then
    if (pkt.seqnum : Int) = s.next_lar then
      match s.unackPkt with
      | [] => none
      | _ :: rest =>
        some ({ s with last_ack_rec := s.next_lar, unackPkt := rest },
              [Event.stopTimer, Event.toLayer5 ⟨pkt.payload⟩])
    else
      some (s, [Event.stopTimer])
  else
    some (s, Event.stopTimer ::
      (if s.unackPkt.length > 0 then
        s.unackPkt.map Event.toLayer3 ++ [Event.startTimer s.timeout_val]
      else
        []))

/-- Source `SndTransport.timer_interrupt` of part1: just `retransmit()`. -/
def SndTransport.timer_interrupt1 (s : SndTransport) : List Event :=
  s.retransmit

/-- Source `SndTransport.timer_interrupt` of part2: resend every unacked
packet when there are any, then restart the timer unconditionally (the
`start_timer` call is outside the `if`). -/
def SndTransport.timer_interrupt2 (s : SndTransport) : List Event :=
  (if s.unackPkt.length > 0 then s.unackPkt.map Event.toLayer3 else [])
    ++ [Event.startTimer s.timeout_val]

/-- Receiver state (`RcvTransport.__init__` instance fields). -/
structure RcvTransport where
  seqnum_limit : Nat
  last_frame_rec : Int
deriving DecidableEq

/-- Source `RcvTransport.__init__(seqnum_limit)`. -/
def RcvTransport.init (seqnum_limit : Nat) : RcvTransport :=
  { seqnum_limit := seqnum_limit, last_frame_rec := -1 }

/-- Source `next_frame_rec`: incremented `last_frame_rec`, wrapping at
`seqnum_limit`. -/
def RcvTransport.next_frame_rec (r : RcvTransport) : Int :=
  if r.last_frame_rec < (r.seqnum_limit : Int) - 1 then r.last_frame_rec + 1 else 0

/-- Source `RcvTransport.check_rec` (identical in part1 and part2). -/
def RcvTransport.check_rec (_r : RcvTransport) (packet : Pkt) : Bool :=
  calc_checksum packet == packet.checksum

/-- The positive acknowledgment the receiver builds for a checksum-valid
packet: `Pkt(packet.seqnum, packet.seqnum, 0, packet.payload)` with its
checksum then computed. -/
def posAckOf (packet : Pkt) : Pkt :=
  let ack0 : Pkt := ⟨packet.seqnum, packet.seqnum, 0, packet.payload⟩
  { ack0 with checksum := calc_checksum ack0 }

/-- The negative acknowledgment the receiver builds for a checksum-invalid
packet: `fraud_ack_num = packet.seqnum - 1`, overridden to `1` when
`packet.seqnum == 0`. -/
def nackOf (packet : Pkt) : Pkt :=
  let fraud_ack_num := if packet.seqnum = 0 then 1 else packet.seqnum - 1
  let nack0 : Pkt := ⟨packet.seqnum, fraud_ack_num, 0, packet.payload⟩
  { nack0 with checksum := calc_checksum nack0 }

/-- Source `RcvTransport.recv` (identical in part1 and part2 up to prints):
valid checksum → deliver to layer 5 iff `seqnum == next_frame_rec()` (and
advance `last_frame_rec`), then always send the positive ack; invalid
checksum → send the nack, touch nothing else. -/
def RcvTransport.recv (r : RcvTransport) (packet : Pkt) : RcvTransport × List Event :=
  if r.check_rec packet then
    let step :=
      if (packet.seqnum : Int) = r.next_frame_rec then
        ({ r with last_frame_rec := r.next_frame_rec },
         [Event.toLayer5 ⟨packet.payload⟩])
      else
        (r, ([] : List Event))
    (step.1, step.2 ++ [Event.toLayer3 (posAckOf packet)])
  else
    (r, [Event.toLayer3 (nackOf packet)])

/-- Feed a list of arriving packets to the receiver, concatenating the
emitted events. -/
def runRcv (r : RcvTransport) : List Pkt → RcvTransport × List Event
  | [] => (r, [])
  | p :: ps =>
    let step := r.recv p
    let rest := runRcv step.1 ps
    (rest.1, step.2 ++ rest.2)

/-- The messages an event trace delivers to layer 5, in order. -/
def deliveredMsgs (evs : List Event) : List Msg :=
  evs.filterMap fun e => match e with
    | Event.toLayer5 m => some m
    | _ => none

/-- The packets an event trace hands to layer 3, in order. -/
def sentPkts (evs : List Event) : List Pkt :=
  evs.filterMap fun e => match e with
    | Event.toLayer3 p => some p
    | _ => none

/-- An external event arriving at the sender. -/
inductive SndOp where
  | send (m : Msg)
  | recvOp (p : Pkt)
  | timerInterrupt
deriving DecidableEq

/-- One sender step under the part1 code (`none` = a raised exception). -/
def stepSnd1 (s : SndTransport) : SndOp → Option (SndTransport × List Event)
  | SndOp.send m => some (s.send m)
  | SndOp.recvOp p => s.recv1 p
  | SndOp.timerInterrupt => some (s, s.timer_interrupt1)

/-- One sender step under the part2 code (`none` = a raised exception). -/
def stepSnd2 (s : SndTransport) : SndOp → Option (SndTransport × List Event)
  | SndOp.send m => some (s.send m)
  | SndOp.recvOp p => s.recv2 p
  | SndOp.timerInterrupt => some (s, s.timer_interrupt2)

/-- Run a sequence of sender events under part1, tracking only the state. -/
def runSnd1 (s : SndTransport) : List SndOp → Option SndTransport
  | [] => some s
  | op :: ops =>
    match stepSnd1 s op with
    | none => none
    | some st => runSnd1 st.1 ops

/-- Run a sequence of sender events under part2, tracking only the state. -/
def runSnd2 (s : SndTransport) : List SndOp → Option SndTransport
  | [] => some s
  | op :: ops =>
    match stepSnd2 s op with
    | none => none
    | some st => runSnd2 st.1 ops

/-- Run a sequence of consecutive `send` calls (no intervening events). -/
def runSends (s : SndTransport) : List Msg → SndTransport
  | [] => s
  | m :: ms => runSends (s.send m).1 ms

/-! ## Receiver corruption handling -/

/-- C7: a packet failing checksum verification leaves all receiver state
unchanged, delivers nothing upward, and is answered by exactly one nack
whose `seqnum` echoes the packet's, whose `acknum` is `seqnum - 1` (or `1`
when `seqnum = 0`) and always differs from the packet's `seqnum`, whose
payload is echoed unexamined, and whose checksum is freshly computed over
its own fields. -/
theorem corruption_nack (r : RcvTransport) (packet : Pkt)
    (h : r.check_rec packet = false) :
    r.recv packet = (r, [Event.toLayer3 (nackOf packet)])
    ∧ (nackOf packet).seqnum = packet.seqnum
    ∧ (nackOf packet).acknum = (if packet.seqnum = 0 then 1 else packet.seqnum - 1)
    ∧ (nackOf packet).acknum ≠ packet.seqnum
    ∧ (nackOf packet).payload = packet.payload
    ∧ (nackOf packet).checksum = calc_checksum (nackOf packet)
    ∧ deliveredMsgs [Event.toLayer3 (nackOf packet)] = [] := by
  refine ⟨by simp [RcvTransport.recv, h], rfl, rfl, ?_, rfl, rfl, rfl⟩
  show (nackOf packet).acknum ≠ packet.seqnum
  simp only [nackOf]
  by_cases h0 : packet.seqnum = 0
  · simp [h0]
  · simp only [h0, if_neg, ite_false]
    omega

/-- Witness for `corruption_nack` at a concrete corrupted packet (stored
checksum `0`, true checksum `-1`). -/
theorem corruption_nack_witness :
    (RcvTransport.init 8).recv ⟨0, 0, 0, []⟩
      = (RcvTransport.init 8, [Event.toLayer3 (nackOf ⟨0, 0, 0, []⟩)]) :=
  (corruption_nack (RcvTransport.init 8) ⟨0, 0, 0, []⟩ (by decide)).1

/-! ## Sender crash on an ack for an unsent frame -/

/-- C8: the source of both variants executes `self.unackPkt.pop(0)` without
guarding against an empty list.  A checksum-valid packet with
`acknum == seqnum == next_lar()` arriving at a sender whose window is empty
(here: a freshly constructed sender) raises `IndexError` (modelled as
`none`) instead of being ignored, in both part1 and part2. -/
theorem stale_ack_crash :
    SndTransport.recv1 (SndTransport.init 8 40 2) ⟨0, 0, -1, List.replicate 20 0⟩ = none
    ∧ SndTransport.recv2 (SndTransport.init 8 40 2) ⟨0, 0, -1, List.replicate 20 0⟩ = none := by
  decide

/-! ## Constructor performs no validation -/

/-- C9 counterexample: constructing a `SndTransport` with
`seqnum_limit = 1 < 4 = 2 × window_size` does not fail; `__init__` performs
no validation and returns an ordinary fully-populated instance. -/
theorem config_fail_fast_counterexample :
    SndTransport.init 1 40 2
      = { window_size := 2, seqnum_limit := 1, last_ack_rec := -1,
          next_frame_index := 0, unackPkt := [], timeout_val := 40 }
    ∧ (1 : Nat) < 2 * 2 := by
  decide

/-- C9 amended: a violating configuration is accepted silently and then
misbehaves: with `seqnum_limit = 1` and `window_size ≥ 2`, two consecutive
sends put two distinct unacknowledged packets with the same sequence
number `0` in flight. -/
theorem config_no_validation (t w : Nat) (m1 m2 : Msg) (hw : 2 ≤ w) :
    ((SndTransport.init 1 t w).send m1).1.unackPkt.map Pkt.seqnum = [0]
    ∧ ((((SndTransport.init 1 t w).send m1).1.send m2).1).unackPkt.map Pkt.seqnum = [0, 0] := by
  have hc1 : (SndTransport.init 1 t w).check_send = true := by
    simp only [SndTransport.check_send, SndTransport.init, List.length_nil,
      decide_eq_true_eq]
    omega
  have h1 : ((SndTransport.init 1 t w).send m1).1
      = { window_size := w, seqnum_limit := 1, last_ack_rec := -1,
          next_frame_index := 0,
          unackPkt := [⟨0, 0, calc_checksum ⟨0, 0, 0, m1.data⟩, m1.data⟩],
          timeout_val := t } := by
    simp only [SndTransport.send, hc1, if_true]
    rfl
  have hc2 : SndTransport.check_send
      { window_size := w, seqnum_limit := 1, last_ack_rec := -1,
        next_frame_index := 0,
        unackPkt := [⟨0, 0, calc_checksum ⟨0, 0, 0, m1.data⟩, m1.data⟩],
        timeout_val := t } = true := by
    simp only [SndTransport.check_send, List.length_cons, List.length_nil,
      decide_eq_true_eq]
    omega
  have h2 : (SndTransport.send
      { window_size := w, seqnum_limit := 1, last_ack_rec := -1,
        next_frame_index := 0,
        unackPkt := [⟨0, 0, calc_checksum ⟨0, 0, 0, m1.data⟩, m1.data⟩],
        timeout_val := t } m2).1
      = { window_size := w, seqnum_limit := 1, last_ack_rec := -1,
          next_frame_index := 0,
          unackPkt := [⟨0, 0, calc_checksum ⟨0, 0, 0, m1.data⟩, m1.data⟩,
                       ⟨0, 0, calc_checksum ⟨0, 0, 0, m2.data⟩, m2.data⟩],
          timeout_val := t } := by
    simp only [SndTransport.send, hc2, if_true]
    rfl
  rw [h1, h2]
  exact ⟨rfl, rfl⟩

/-- Witness for `config_no_validation` at `t = 40`, `w = 2`. -/
theorem config_no_validation_witness :
    (((SndTransport.init 1 40 2).send ⟨[]⟩).1).unackPkt.map Pkt.seqnum = [0]
    ∧ (((((SndTransport.init 1 40 2).send ⟨[]⟩).1).send ⟨[]⟩).1).unackPkt.map Pkt.seqnum
        = [0, 0] :=
  config_no_validation 40 2 ⟨[]⟩ ⟨[]⟩ (by decide)

/-! ## Ack acceptance at the sender -/

/-- C5 counterexample: a valid ack for the oldest outstanding packet is
accepted (state advanced, oldest popped), but the timer is NOT rearmed even
though `unackPkt` is still non-empty afterwards, and the payload delivered
to layer 5 is the arriving ack's payload (`[]`), not the stored oldest
packet's payload (`[5]`). -/
theorem ack_acceptance_counterexample :
    SndTransport.recv1
        ⟨2, 8, -1, 2, [⟨0, 0, calc_checksum ⟨0, 0, 0, [5]⟩, [5]⟩,
                       ⟨1, 1, calc_checksum ⟨1, 1, 0, [9]⟩, [9]⟩], 40⟩
        ⟨0, 0, calc_checksum ⟨0, 0, 0, []⟩, []⟩
      = some (⟨2, 8, 0, 2, [⟨1, 1, calc_checksum ⟨1, 1, 0, [9]⟩, [9]⟩], 40⟩,
              [Event.stopTimer, Event.toLayer5 ⟨[]⟩])
    ∧ ([Event.stopTimer, Event.toLayer5 (⟨[]⟩ : Msg)].filter
        (fun e => match e with | Event.startTimer _ => true | _ => false)) = []
    ∧ (⟨[]⟩ : Msg) ≠ (⟨[5]⟩ : Msg) := by
  decide

/-- C5 amended: in both variants, a packet passing `check_rec` whose
`acknum` is the sequence number following `last_ack_rec` advances
`last_ack_rec`, removes the oldest entry of `unackPkt`, and delivers the
arriving packet's own payload upward via `to_layer5`; the emitted events
are exactly `[stopTimer, toLayer5]` — the retransmission timer is not
rearmed, no matter whether `unackPkt` is still non-empty. -/
theorem ack_acceptance (s : SndTransport) (pkt p0 : Pkt) (rest : List Pkt)
    (hq : s.unackPkt = p0 :: rest)
    (hc : s.check_rec pkt = true)
    (ha : (pkt.acknum : Int) = s.next_lar) :
    s.recv1 pkt = some ({ s with last_ack_rec := s.next_lar, unackPkt := rest },
                        [Event.stopTimer, Event.toLayer5 ⟨pkt.payload⟩])
    ∧ s.recv2 pkt = some ({ s with last_ack_rec := s.next_lar, unackPkt := rest },
                          [Event.stopTimer, Event.toLayer5 ⟨pkt.payload⟩]) := by
  have hak : pkt.acknum = pkt.seqnum := by
    have hc' := hc
    simp only [SndTransport.check_rec, Bool.and_eq_true, beq_iff_eq] at hc'
    exact hc'.1
  have hs : (pkt.seqnum : Int) = s.next_lar := by
    rw [← hak]; exact ha
  constructor
  · simp only [SndTransport.recv1, hc, if_true, hs, if_pos, hq]
  · simp only [SndTransport.recv2, hc, if_true, hs, if_pos, hq]

/-- Witness for `ack_acceptance` at a concrete two-packet window. -/
theorem ack_acceptance_witness :
    SndTransport.recv2
        ⟨2, 8, -1, 2, [⟨0, 0, calc_checksum ⟨0, 0, 0, [5]⟩, [5]⟩,
                       ⟨1, 1, calc_checksum ⟨1, 1, 0, [9]⟩, [9]⟩], 40⟩
        ⟨0, 0, calc_checksum ⟨0, 0, 0, []⟩, []⟩
      = some (⟨2, 8, 0, 2, [⟨1, 1, calc_checksum ⟨1, 1, 0, [9]⟩, [9]⟩], 40⟩,
              [Event.stopTimer, Event.toLayer5 ⟨[]⟩]) :=
  (ack_acceptance
    ⟨2, 8, -1, 2, [⟨0, 0, calc_checksum ⟨0, 0, 0, [5]⟩, [5]⟩,
                   ⟨1, 1, calc_checksum ⟨1, 1, 0, [9]⟩, [9]⟩], 40⟩
    ⟨0, 0, calc_checksum ⟨0, 0, 0, []⟩, []⟩
    ⟨0, 0, calc_checksum ⟨0, 0, 0, [5]⟩, [5]⟩
    [⟨1, 1, calc_checksum ⟨1, 1, 0, [9]⟩, [9]⟩]
    rfl (by decide) (by decide)).2

/-! ## Timer interrupt -/

/-- C6 counterexample: in part2, a timer interrupt with an empty `unackPkt`
does not do nothing — it rearms the timer. -/
theorem timer_interrupt_counterexample :
    (SndTransport.init 8 40 2).unackPkt = []
    ∧ SndTransport.timer_interrupt2 (SndTransport.init 8 40 2) = [Event.startTimer 40] := by
  decide

/-- Auxiliary: `inc_nfi` only touches `next_frame_index`. -/
lemma inc_nfi_unackPkt (s : SndTransport) : s.inc_nfi.unackPkt = s.unackPkt := by
  unfold SndTransport.inc_nfi
  split <;> rfl

/-- Auxiliary: `inc_nfi` preserves `window_size`. -/
lemma inc_nfi_window (s : SndTransport) : s.inc_nfi.window_size = s.window_size := by
  unfold SndTransport.inc_nfi
  split <;> rfl

/-- Auxiliary: any part1 sender step that completes leaves `unackPkt`
unchanged, removes its oldest element, or appends one fresh packet. -/
lemma unack_evolution1 (s : SndTransport) (op : SndOp) (s1 : SndTransport)
    (ev : List Event) (h : stepSnd1 s op = some (s1, ev)) :
    s1.unackPkt = s.unackPkt ∨ s1.unackPkt = s.unackPkt.tail
    ∨ ∃ p, s1.unackPkt = s.unackPkt ++ [p] := by
  cases op with
  | send m =>
    simp only [stepSnd1, Option.some_inj] at h
    unfold SndTransport.send at h
    split at h
    · injection h with h1 h2
      subst h1
      right; right
      exact ⟨⟨s.next_frame_index, s.next_frame_index,
              calc_checksum ⟨s.next_frame_index, s.next_frame_index, 0, m.data⟩,
              m.data⟩,
        by simp [inc_nfi_unackPkt]⟩
    · injection h with h1 h2
      subst h1
      left; rfl
  | recvOp p =>
    simp only [stepSnd1] at h
    unfold SndTransport.recv1 at h
    split at h
    · split at h
      · split at h
        · cases h
        · rw [Option.some_inj] at h
          injection h with h1 h2
          subst h1
          right; left
          rename_i heq
          simp [heq]
      · split at h <;>
          { rw [Option.some_inj] at h
            injection h with h1 h2
            subst h1
            left; rfl }
    · rw [Option.some_inj] at h
      injection h with h1 h2
      subst h1
      left; rfl
  | timerInterrupt =>
    simp only [stepSnd1, Option.some_inj] at h
    injection h with h1 h2
    subst h1
    left; rfl

/-- Auxiliary: any part2 sender step that completes leaves `unackPkt`
unchanged, removes its oldest element, or appends one fresh packet. -/
lemma unack_evolution2 (s : SndTransport) (op : SndOp) (s2 : SndTransport)
    (ev : List Event) (h : stepSnd2 s op = some (s2, ev)) :
    s2.unackPkt = s.unackPkt ∨ s2.unackPkt = s.unackPkt.tail
    ∨ ∃ p, s2.unackPkt = s.unackPkt ++ [p] := by
  cases op with
  | send m =>
    simp only [stepSnd2, Option.some_inj] at h
    unfold SndTransport.send at h
    split at h
    · injection h with h1 h2
      subst h1
      right; right
      exact ⟨⟨s.next_frame_index, s.next_frame_index,
              calc_checksum ⟨s.next_frame_index, s.next_frame_index, 0, m.data⟩,
              m.data⟩,
        by simp [inc_nfi_unackPkt]⟩
    · injection h with h1 h2
      subst h1
      left; rfl
  | recvOp p =>
    simp only [stepSnd2] at h
    unfold SndTransport.recv2 at h
    split at h
    · split at h
      · split at h
        · cases h
        · rw [Option.some_inj] at h
          injection h with h1 h2
          subst h1
          right; left
          rename_i heq
          simp [heq]
      · rw [Option.some_inj] at h
        injection h with h1 h2
        subst h1
        left; rfl
    · rw [Option.some_inj] at h
      injection h with h1 h2
      subst h1
      left; rfl
  | timerInterrupt =>
    simp only [stepSnd2, Option.some_inj] at h
    injection h with h1 h2
    subst h1
    left; rfl

/-- C6 amended: with a non-empty `unackPkt`, both variants retransmit every
stored packet, in order, exactly as stored, and rearm the timer; with an
empty `unackPkt`, part1 does nothing at all while part2 still rearms the
timer.  Stored packets are never modified by any sender operation: each
step either leaves `unackPkt` unchanged, removes its oldest element, or
appends a fresh packet at the end, so a retransmitted packet is
bit-identical to its first transmission. -/
theorem timer_interrupt_behavior (s : SndTransport) :
    (s.unackPkt ≠ [] →
       s.timer_interrupt1 = s.unackPkt.map Event.toLayer3 ++ [Event.startTimer s.timeout_val]
       ∧ s.timer_interrupt2 = s.unackPkt.map Event.toLayer3 ++ [Event.startTimer s.timeout_val])
    ∧ (s.unackPkt = [] →
       s.timer_interrupt1 = [] ∧ s.timer_interrupt2 = [Event.startTimer s.timeout_val])
    ∧ (∀ (op : SndOp) (s1 : SndTransport) (ev : List Event), stepSnd1 s op = some (s1, ev) →
        s1.unackPkt = s.unackPkt ∨ s1.unackPkt = s.unackPkt.tail
        ∨ ∃ p, s1.unackPkt = s.unackPkt ++ [p])
    ∧ (∀ (op : SndOp) (s2 : SndTransport) (ev : List Event), stepSnd2 s op = some (s2, ev) →
        s2.unackPkt = s.unackPkt ∨ s2.unackPkt = s.unackPkt.tail
        ∨ ∃ p, s2.unackPkt = s.unackPkt ++ [p]) := by
  refine ⟨?_, ?_, fun op s1 ev h => unack_evolution1 s op s1 ev h,
          fun op s2 ev h => unack_evolution2 s op s2 ev h⟩
  · intro hne
    have hlen : s.unackPkt.length > 0 := List.length_pos.mpr hne
    constructor
    · simp [SndTransport.timer_interrupt1, SndTransport.retransmit, hlen]
    · simp [SndTransport.timer_interrupt2, hlen]
  · intro he
    constructor
    · simp [SndTransport.timer_interrupt1, SndTransport.retransmit, he]
    · simp [SndTransport.timer_interrupt2, he]

/-- Witness for `timer_interrupt_behavior` at a concrete one-packet window. -/
theorem timer_interrupt_behavior_witness :
    SndTransport.timer_interrupt1 ⟨2, 8, -1, 1, [⟨0, 0, -1, []⟩], 40⟩
      = [Event.toLayer3 ⟨0, 0, -1, []⟩, Event.startTimer 40]
    ∧ SndTransport.timer_interrupt2 ⟨2, 8, -1, 1, [⟨0, 0, -1, []⟩], 40⟩
      = [Event.toLayer3 ⟨0, 0, -1, []⟩, Event.startTimer 40] :=
  (timer_interrupt_behavior ⟨2, 8, -1, 1, [⟨0, 0, -1, []⟩], 40⟩).1 (by decide)

/-! ## Variant agreement on out-of-order acks -/

/-- C10 counterexample: a packet that passes `check_rec` but whose seqnum
is BELOW the expected next ack (`next_lar() = 1` here) makes part1 do
nothing beyond stopping the timer — part1 does not retransmit on any such
mismatch, only on `seqnum > next_lar()`. -/
theorem variant_mismatch_counterexample :
    SndTransport.recv1
        ⟨2, 8, 0, 2, [⟨1, 1, calc_checksum ⟨1, 1, 0, []⟩, []⟩], 40⟩
        ⟨0, 0, calc_checksum ⟨0, 0, 0, []⟩, []⟩
      = some (⟨2, 8, 0, 2, [⟨1, 1, calc_checksum ⟨1, 1, 0, []⟩, []⟩], 40⟩,
              [Event.stopTimer])
    ∧ SndTransport.check_rec ⟨2, 8, 0, 2, [⟨1, 1, calc_checksum ⟨1, 1, 0, []⟩, []⟩], 40⟩
        ⟨0, 0, calc_checksum ⟨0, 0, 0, []⟩, []⟩ = true
    ∧ ((⟨0, 0, calc_checksum ⟨0, 0, 0, []⟩, []⟩ : Pkt).seqnum : Int)
        ≠ SndTransport.next_lar ⟨2, 8, 0, 2, [⟨1, 1, calc_checksum ⟨1, 1, 0, []⟩, []⟩], 40⟩
    ∧ (⟨2, 8, 0, 2, [⟨1, 1, calc_checksum ⟨1, 1, 0, []⟩, []⟩], 40⟩ : SndTransport).unackPkt
        ≠ [] := by
  decide

/-- C10 amended: the part1 and part2 `SndTransport.recv` implementations
behave identically on every packet except one that passes `check_rec` and
whose seqnum is numerically GREATER than `next_lar()`: there part1
retransmits everything currently outstanding (rearming the timer when
anything is outstanding) while part2 does nothing beyond stopping the
timer.  On a passing packet whose seqnum is below `next_lar()` both
variants do nothing beyond stopping the timer. -/
theorem variant_agreement (s : SndTransport) (pkt : Pkt) :
    (¬(s.check_rec pkt = true ∧ (pkt.seqnum : Int) > s.next_lar) →
       s.recv1 pkt = s.recv2 pkt)
    ∧ (s.check_rec pkt = true → (pkt.seqnum : Int) > s.next_lar →
       s.recv2 pkt = some (s, [Event.stopTimer])
       ∧ s.recv1 pkt = some (s, Event.stopTimer :: s.retransmit)) := by
  constructor
  · intro hn
    by_cases hc : s.check_rec pkt
    · have hng : ¬ (pkt.seqnum : Int) > s.next_lar := fun hg => hn ⟨hc, hg⟩
      by_cases he : (pkt.seqnum : Int) = s.next_lar
      · simp only [SndTransport.recv1, SndTransport.recv2, hc, if_true, he]
      · simp only [SndTransport.recv1, SndTransport.recv2, hc, if_true, he,
          if_false, hng]
    · simp [SndTransport.recv1, SndTransport.recv2, hc,
        SndTransport.retransmit]
  · intro hc hg
    have he : ¬ (pkt.seqnum : Int) = s.next_lar := by
      intro h; rw [h] at hg; exact lt_irrefl _ hg
    constructor
    · simp only [SndTransport.recv2, hc, if_true, he, if_false]
    · simp only [SndTransport.recv1, hc, if_true, he, if_false, hg]

/-- Witness for `variant_agreement` at a concrete valid ack ahead of the
expected next ack (`seqnum = 1 > 0 = next_lar()`). -/
theorem variant_agreement_witness :
    SndTransport.recv2 ⟨2, 8, -1, 2, [⟨0, 0, -1, []⟩, ⟨1, 1, -258, []⟩], 40⟩
        ⟨1, 1, calc_checksum ⟨1, 1, 0, []⟩, []⟩
      = some (⟨2, 8, -1, 2, [⟨0, 0, -1, []⟩, ⟨1, 1, -258, []⟩], 40⟩, [Event.stopTimer])
    ∧ SndTransport.recv1 ⟨2, 8, -1, 2, [⟨0, 0, -1, []⟩, ⟨1, 1, -258, []⟩], 40⟩
        ⟨1, 1, calc_checksum ⟨1, 1, 0, []⟩, []⟩
      = some (⟨2, 8, -1, 2, [⟨0, 0, -1, []⟩, ⟨1, 1, -258, []⟩], 40⟩,
          Event.stopTimer ::
            SndTransport.retransmit ⟨2, 8, -1, 2, [⟨0, 0, -1, []⟩, ⟨1, 1, -258, []⟩], 40⟩) :=
  (variant_agreement ⟨2, 8, -1, 2, [⟨0, 0, -1, []⟩, ⟨1, 1, -258, []⟩], 40⟩
      ⟨1, 1, calc_checksum ⟨1, 1, 0, []⟩, []⟩).2 (by decide) (by decide)

/-! ## Window bound -/

/-- Auxiliary: `send` never grows `unackPkt` beyond `window_size`, and
preserves `window_size`. -/
lemma send_window (s : SndTransport) (m : Msg) :
    (s.send m).1.window_size = s.window_size
    ∧ (s.send m).1.unackPkt.length
        = (if s.unackPkt.length < s.window_size then s.unackPkt.length + 1
           else s.unackPkt.length) := by
  unfold SndTransport.send
  by_cases hc : s.check_send
  · have hlt : s.unackPkt.length < s.window_size := by
      have := hc
      simp only [SndTransport.check_send, decide_eq_true_eq] at this
      exact this
    simp [hc, inc_nfi_window, inc_nfi_unackPkt, hlt]
  · have hge : ¬ s.unackPkt.length < s.window_size := by
      intro h
      exact hc (by simp [SndTransport.check_send, h])
    simp [hc, hge]

/-- Auxiliary: a completed part1 step preserves the window invariant. -/
lemma step1_invariant (s : SndTransport) (op : SndOp) (s1 : SndTransport)
    (ev : List Event) (h : stepSnd1 s op = some (s1, ev))
    (hinv : s.unackPkt.length ≤ s.window_size) :
    s1.unackPkt.length ≤ s1.window_size ∧ s1.window_size = s.window_size := by
  cases op with
  | send m =>
    simp only [stepSnd1, Option.some_inj] at h
    have hw := (send_window s m).1
    have hl := (send_window s m).2
    rw [h] at hw hl
    refine ⟨?_, hw⟩
    rw [hl, hw]
    split <;> omega
  | recvOp p =>
    simp only [stepSnd1] at h
    unfold SndTransport.recv1 at h
    split at h
    · split at h
      · split at h
        · cases h
        · rw [Option.some_inj] at h
          injection h with h1 h2
          subst h1
          rename_i heq
          rw [heq] at hinv
          simp only [List.length_cons] at hinv
          exact ⟨Nat.le_of_succ_le hinv, rfl⟩
      · split at h <;>
          { rw [Option.some_inj] at h
            injection h with h1 h2
            subst h1
            exact ⟨hinv, rfl⟩ }
    · rw [Option.some_inj] at h
      injection h with h1 h2
      subst h1
      exact ⟨hinv, rfl⟩
  | timerInterrupt =>
    simp only [stepSnd1, Option.some_inj] at h
    injection h with h1 h2
    subst h1
    exact ⟨hinv, rfl⟩

/-- Auxiliary: a completed part2 step preserves the window invariant. -/
lemma step2_invariant (s : SndTransport) (op : SndOp) (s2 : SndTransport)
    (ev : List Event) (h : stepSnd2 s op = some (s2, ev))
    (hinv : s.unackPkt.length ≤ s.window_size) :
    s2.unackPkt.length ≤ s2.window_size ∧ s2.window_size = s.window_size := by
  cases op with
  | send m =>
    simp only [stepSnd2, Option.some_inj] at h
    have hw := (send_window s m).1
    have hl := (send_window s m).2
    rw [h] at hw hl
    refine ⟨?_, hw⟩
    rw [hl, hw]
    split <;> omega
  | recvOp p =>
    simp only [stepSnd2] at h
    unfold SndTransport.recv2 at h
    split at h
    · split at h
      · split at h
        · cases h
        · rw [Option.some_inj] at h
          injection h with h1 h2
          subst h1
          rename_i heq
          rw [heq] at hinv
          simp only [List.length_cons] at hinv
          exact ⟨Nat.le_of_succ_le hinv, rfl⟩
      · rw [Option.some_inj] at h
        injection h with h1 h2
        subst h1
        exact ⟨hinv, rfl⟩
    · rw [Option.some_inj] at h
      injection h with h1 h2
      subst h1
      exact ⟨hinv, rfl⟩
  | timerInterrupt =>
    simp only [stepSnd2, Option.some_inj] at h
    injection h with h1 h2
    subst h1
    exact ⟨hinv, rfl⟩

/-- Auxiliary: the window invariant propagates along part1 runs. -/
lemma runSnd1_invariant (ops : List SndOp) :
    ∀ (s s1 : SndTransport), runSnd1 s ops = some s1 →
      s.unackPkt.length ≤ s.window_size → s1.unackPkt.length ≤ s1.window_size := by
  induction ops with
  | nil =>
    intro s s1 h hinv
    simp only [runSnd1, Option.some_inj] at h
    rw [← h]; exact hinv
  | cons op ops ih =>
    intro s s1 h hinv
    simp only [runSnd1] at h
    cases hst : stepSnd1 s op with
    | none => rw [hst] at h; cases h
    | some st =>
      rw [hst] at h
      exact ih st.1 s1 h (step1_invariant s op st.1 st.2 (by rw [hst]) hinv).1

/-- Auxiliary: the window invariant propagates along part2 runs. -/
lemma runSnd2_invariant (ops : List SndOp) :
    ∀ (s s2 : SndTransport), runSnd2 s ops = some s2 →
      s.unackPkt.length ≤ s.window_size → s2.unackPkt.length ≤ s2.window_size := by
  induction ops with
  | nil =>
    intro s s2 h hinv
    simp only [runSnd2, Option.some_inj] at h
    rw [← h]; exact hinv
  | cons op ops ih =>
    intro s s2 h hinv
    simp only [runSnd2] at h
    cases hst : stepSnd2 s op with
    | none => rw [hst] at h; cases h
    | some st =>
      rw [hst] at h
      exact ih st.1 s2 h (step2_invariant s op st.1 st.2 (by rw [hst]) hinv).1

/-- Auxiliary: consecutive sends fill the window up to `window_size` and
never beyond. -/
lemma runSends_length (msgs : List Msg) :
    ∀ s : SndTransport, s.unackPkt.length ≤ s.window_size →
      (runSends s msgs).window_size = s.window_size
      ∧ (runSends s msgs).unackPkt.length
          = min s.window_size (s.unackPkt.length + msgs.length) := by
  induction msgs with
  | nil =>
    intro s hinv
    simp only [runSends, List.length_nil, Nat.add_zero]
    exact ⟨trivial, (Nat.min_eq_right hinv).symm⟩
  | cons m ms ih =>
    intro s hinv
    simp only [runSends]
    have hw := (send_window s m).1
    have hl := (send_window s m).2
    have hinv' : (s.send m).1.unackPkt.length ≤ (s.send m).1.window_size := by
      rw [hl, hw]; split <;> omega
    have := ih (s.send m).1 hinv'
    rw [this.1, this.2, hw, hl]
    constructor
    · rfl
    · split <;> simp <;> omega

/-- C2: (i) `len(unackPkt) ≤ window_size` after every completed sequence of
sender operations from construction onward, in both variants; (ii) a `send`
arriving with a full window is rejected without building a packet,
transmitting, advancing `next_frame_index`, or touching any state; (iii)
after `window_size` consecutive sends with no intervening acknowledgments,
the next (`window_size + 1`-th) `send` is rejected and changes nothing. -/
theorem window_bound :
    (∀ (l t w : Nat) (ops : List SndOp) (s1 : SndTransport),
        runSnd1 (SndTransport.init l t w) ops = some s1 →
        s1.unackPkt.length ≤ s1.window_size)
    ∧ (∀ (l t w : Nat) (ops : List SndOp) (s2 : SndTransport),
        runSnd2 (SndTransport.init l t w) ops = some s2 →
        s2.unackPkt.length ≤ s2.window_size)
    ∧ (∀ (s : SndTransport) (m : Msg), s.unackPkt.length = s.window_size →
        s.send m = (s, []))
    ∧ (∀ (s : SndTransport) (msgs : List Msg) (m : Msg),
        s.unackPkt.length ≤ s.window_size → msgs.length = s.window_size →
        (runSends s msgs).send m = (runSends s msgs, [])) := by
  have hreject : ∀ (s : SndTransport) (m : Msg),
      ¬ s.unackPkt.length < s.window_size → s.send m = (s, []) := by
    intro s m hge
    unfold SndTransport.send
    have hc : ¬ s.check_send = true := by
      simp [SndTransport.check_send, hge]
    simp [hc]
  refine ⟨?_, ?_, ?_, ?_⟩
  · intro l t w ops s1 h
    exact runSnd1_invariant ops (SndTransport.init l t w) s1 h
      (by simp [SndTransport.init])
  · intro l t w ops s2 h
    exact runSnd2_invariant ops (SndTransport.init l t w) s2 h
      (by simp [SndTransport.init])
  · intro s m hfull
    exact hreject s m (by omega)
  · intro s msgs m hinv hcount
    have hrun := runSends_length msgs s hinv
    exact hreject (runSends s msgs) m (by omega)

/-- Witness for `window_bound`: a window-1 sender accepts its first send
and rejects the second. -/
theorem window_bound_witness :
    (runSends (SndTransport.init 8 40 1) [⟨[]⟩]).send ⟨[]⟩
      = (runSends (SndTransport.init 8 40 1) [⟨[]⟩], [])
    ∧ ((SndTransport.init 8 40 1).send ⟨[]⟩).1.unackPkt.length
        ≤ ((SndTransport.init 8 40 1).send ⟨[]⟩).1.window_size :=
  ⟨window_bound.2.2.2 (SndTransport.init 8 40 1) [⟨[]⟩] ⟨[]⟩ (by decide) (by decide),
   window_bound.1 8 40 1 [SndOp.send ⟨[]⟩]
     ((SndTransport.init 8 40 1).send ⟨[]⟩).1 (by decide)⟩

/-! ## In-order delivery at the receiver -/

/-- The packets the specification says get delivered: among the arriving
packets, exactly the checksum-valid ones whose seqnum equals the expected
next value on arrival, the expectation starting at `exp` and advancing by
one modulo `limit` at each delivery. -/
def expectedDelivered (limit : Nat) : Nat → List Pkt → List Pkt
  | _, [] => []
  | exp, p :: ps =>
    if calc_checksum p = p.checksum ∧ p.seqnum = exp then
      p :: expectedDelivered limit ((exp + 1) % limit) ps
    else
      expectedDelivered limit exp ps

/-- Auxiliary: a fresh receiver expects sequence number `0`. -/
lemma next_frame_rec_init (limit : Nat) :
    (RcvTransport.init limit).next_frame_rec = ((0 : Nat) : Int) := by
  unfold RcvTransport.next_frame_rec RcvTransport.init
  split <;> simp

/-- Auxiliary: accepting the expected frame makes the receiver expect the
next frame modulo `seqnum_limit`. -/
lemma next_frame_rec_step (r : RcvTransport) (limit exp : Nat)
    (hr : r.seqnum_limit = limit) (hexp : exp < limit)
    (hn : r.next_frame_rec = (exp : Int)) :
    RcvTransport.next_frame_rec { r with last_frame_rec := r.next_frame_rec }
      = (((exp + 1) % limit : Nat) : Int) := by
  rw [hn]
  unfold RcvTransport.next_frame_rec
  simp only [hr]
  by_cases h : (exp : Int) < (limit : Int) - 1
  · have h1 : exp + 1 < limit := by omega
    rw [if_pos h, Nat.mod_eq_of_lt h1]
    push_cast
    ring
  · have h1 : exp + 1 = limit := by
      have h3 : (exp : Int) < (limit : Int) := by exact_mod_cast hexp
      omega
    rw [if_neg h, h1, Nat.mod_self]
    simp

/-- Auxiliary: `deliveredMsgs` distributes over concatenation. -/
lemma deliveredMsgs_append (a b : List Event) :
    deliveredMsgs (a ++ b) = deliveredMsgs a ++ deliveredMsgs b :=
  List.filterMap_append a b _

/-- Auxiliary: `sentPkts` distributes over concatenation. -/
lemma sentPkts_append (a b : List Event) :
    sentPkts (a ++ b) = sentPkts a ++ sentPkts b :=
  List.filterMap_append a b _

/-- Auxiliary: full characterisation of a receiver run: the layer-5
deliveries are the payloads of `expectedDelivered`, and the layer-3
emissions answer every arriving packet in order with the positive ack
(valid checksum) or the nack (invalid checksum). -/
lemma runRcv_characterize (limit : Nat) (pkts : List Pkt) :
    ∀ (r : RcvTransport) (exp : Nat),
      r.seqnum_limit = limit → exp < limit → r.next_frame_rec = (exp : Int) →
      deliveredMsgs (runRcv r pkts).2
        = (expectedDelivered limit exp pkts).map (fun p => ⟨p.payload⟩)
      ∧ sentPkts (runRcv r pkts).2
        = pkts.map (fun p => if calc_checksum p = p.checksum then posAckOf p else nackOf p) := by
  induction pkts with
  | nil => intro r exp _ _ _; exact ⟨rfl, rfl⟩
  | cons p ps ih =>
    intro r exp hr hexp hn
    by_cases hv : calc_checksum p = p.checksum
    · have hcheck : r.check_rec p = true := by
        simp [RcvTransport.check_rec, hv]
      by_cases hs : p.seqnum = exp
      · have hcond : ((p.seqnum : Nat) : Int) = r.next_frame_rec := by
          rw [hn, hs]
        have hrecv : r.recv p = ({ r with last_frame_rec := r.next_frame_rec },
            [Event.toLayer5 ⟨p.payload⟩, Event.toLayer3 (posAckOf p)]) := by
          unfold RcvTransport.recv
          rw [if_pos hcheck, if_pos hcond]
          rfl
        have hrun : runRcv r (p :: ps)
            = ((runRcv { r with last_frame_rec := r.next_frame_rec } ps).1,
               [Event.toLayer5 ⟨p.payload⟩, Event.toLayer3 (posAckOf p)]
                 ++ (runRcv { r with last_frame_rec := r.next_frame_rec } ps).2) := by
          simp only [runRcv, hrecv]
        have hexp' : (exp + 1) % limit < limit := Nat.mod_lt _ (by omega)
        have ihh := ih { r with last_frame_rec := r.next_frame_rec }
          ((exp + 1) % limit) hr hexp'
          (next_frame_rec_step r limit exp hr hexp hn)
        have hed : expectedDelivered limit exp (p :: ps)
            = p :: expectedDelivered limit ((exp + 1) % limit) ps := by
          simp only [expectedDelivered, if_pos (And.intro hv hs)]
        rw [hrun, hed]
        constructor
        · rw [deliveredMsgs_append, ihh.1]
          rfl
        · rw [sentPkts_append, ihh.2, List.map_cons, if_pos hv]
          rfl
      · have hcond : ¬ ((p.seqnum : Nat) : Int) = r.next_frame_rec := by
          rw [hn]
          exact_mod_cast hs
        have hrecv : r.recv p = (r, [Event.toLayer3 (posAckOf p)]) := by
          unfold RcvTransport.recv
          rw [if_pos hcheck, if_neg hcond]
          rfl
        have hrun : runRcv r (p :: ps)
            = ((runRcv r ps).1,
               [Event.toLayer3 (posAckOf p)] ++ (runRcv r ps).2) := by
          simp only [runRcv, hrecv]
        have ihh := ih r exp hr hexp hn
        have hed : expectedDelivered limit exp (p :: ps)
            = expectedDelivered limit exp ps := by
          simp only [expectedDelivered]
          rw [if_neg (by intro hh; exact hs hh.2)]
        rw [hrun, hed]
        constructor
        · rw [deliveredMsgs_append, ihh.1]
          rfl
        · rw [sentPkts_append, ihh.2, List.map_cons, if_pos hv]
          rfl
    · have hcheck : ¬ r.check_rec p = true := by
        simp [RcvTransport.check_rec, hv]
      have hrecv : r.recv p = (r, [Event.toLayer3 (nackOf p)]) := by
        unfold RcvTransport.recv
        rw [if_neg hcheck]
      have hrun : runRcv r (p :: ps)
          = ((runRcv r ps).1,
             [Event.toLayer3 (nackOf p)] ++ (runRcv r ps).2) := by
        simp only [runRcv, hrecv]
      have ihh := ih r exp hr hexp hn
      have hed : expectedDelivered limit exp (p :: ps)
          = expectedDelivered limit exp ps := by
        simp only [expectedDelivered]
        rw [if_neg (by intro hh; exact hv hh.1)]
      rw [hrun, hed]
      constructor
      · rw [deliveredMsgs_append, ihh.1]
        rfl
      · rw [sentPkts_append, ihh.2, List.map_cons, if_neg hv]
        rfl

/-- Auxiliary: the seqnums of the delivered packets follow the pattern
`exp, exp+1, exp+2, ...` reduced modulo `limit`, with no gaps or repeats
within a wrap. -/
lemma expectedDelivered_seqnums (limit : Nat) (hl : 1 ≤ limit) (pkts : List Pkt) :
    ∀ exp : Nat, exp < limit →
      (expectedDelivered limit exp pkts).map Pkt.seqnum
        = (List.range (expectedDelivered limit exp pkts).length).map
            (fun k => (exp + k) % limit) := by
  induction pkts with
  | nil => intro exp _; rfl
  | cons p ps ih =>
    intro exp hexp
    by_cases hc : calc_checksum p = p.checksum ∧ p.seqnum = exp
    · simp only [expectedDelivered, if_pos hc]
      have hexp' : (exp + 1) % limit < limit := Nat.mod_lt _ (by omega)
      have ihh := ih ((exp + 1) % limit) hexp'
      rw [List.map_cons, List.length_cons, List.range_succ_eq_map, List.map_cons,
        List.map_map, ihh]
      have hfe : (fun k => ((exp + 1) % limit + k) % limit)
          = (fun k => (exp + k) % limit) ∘ Nat.succ := by
        funext k
        simp only [Function.comp_apply]
        rw [Nat.mod_add_mod]
        congr 1
        omega
      rw [hfe]
      congr 1
      rw [hc.2, Nat.add_zero, Nat.mod_eq_of_lt hexp]
    · simp only [expectedDelivered, if_neg hc]
      exact ih exp hexp

/-- C1: from a freshly constructed receiver, across any finite arrival
sequence, the payloads passed to layer 5 are exactly those of the
checksum-valid packets whose seqnum equalled the expected next value on
arrival; the delivered seqnums are `0, 1, 2, ...` modulo `seqnum_limit`, in
order, with no gaps and no repeats; a packet whose seqnum is not the
expected one is never delivered; and every arriving packet is answered,
checksum-valid ones with a positive ack echoing `acknum = seqnum` and a
fresh checksum. -/
theorem in_order_delivery (limit : Nat) (hl : 1 ≤ limit) (pkts : List Pkt) :
    deliveredMsgs (runRcv (RcvTransport.init limit) pkts).2
      = (expectedDelivered limit 0 pkts).map (fun p => ⟨p.payload⟩)
    ∧ (expectedDelivered limit 0 pkts).map Pkt.seqnum
      = (List.range (expectedDelivered limit 0 pkts).length).map (fun k => k % limit)
    ∧ sentPkts (runRcv (RcvTransport.init limit) pkts).2
      = pkts.map (fun p => if calc_checksum p = p.checksum then posAckOf p else nackOf p)
    ∧ (∀ q : Pkt, (posAckOf q).acknum = q.seqnum ∧ (posAckOf q).seqnum = q.seqnum
        ∧ (posAckOf q).payload = q.payload
        ∧ (posAckOf q).checksum = calc_checksum (posAckOf q)) := by
  have hch := runRcv_characterize limit pkts (RcvTransport.init limit) 0 rfl
    (by omega) (next_frame_rec_init limit)
  refine ⟨hch.1, ?_, hch.2, fun q => ⟨rfl, rfl, rfl, rfl⟩⟩
  have hseq := expectedDelivered_seqnums limit hl pkts 0 (by omega)
  simpa using hseq

/-- Witness for `in_order_delivery` with `seqnum_limit = 2` and one valid
in-order packet. -/
theorem in_order_delivery_witness :
    deliveredMsgs (runRcv (RcvTransport.init 2) [⟨0, 0, -1, []⟩]).2
      = (expectedDelivered 2 0 [⟨0, 0, -1, []⟩]).map (fun p => ⟨p.payload⟩) :=
  (in_order_delivery 2 (by decide) [⟨0, 0, -1, []⟩]).1

lemma and_lo (t : Nat) : t &&& 0xFFFF = t % 65536 := by
  have h : (0xFFFF : Nat) = 2 ^ 16 - 1 := by norm_num
  have h2 : (65536 : Nat) = 2 ^ 16 := by norm_num
  rw [h, h2]
  exact Nat.and_pow_two_sub_one_eq_mod t 16

lemma and_hi (t : Nat) (ht : t < 131072) :
    t &&& 0xFFFF0000 = if t < 65536 then 0 else 65536 := by
  have hmask : (0xFFFF0000 : Nat) = 2 ^ 16 * 65535 := by norm_num
  rcases Nat.lt_or_ge t 65536 with h1 | h1
  · rw [if_pos h1]
    apply Nat.eq_of_testBit_eq
    intro j
    rw [Nat.testBit_and, Nat.zero_testBit]
    rcases Nat.lt_or_ge j 16 with hj | hj
    · have hm : Nat.testBit 0xFFFF0000 j = false := by
        rw [hmask, Nat.testBit_mul_pow_two]
        have : decide (j ≥ 16) = false := decide_eq_false (by omega)
        rw [this, Bool.false_and]
      rw [hm, Bool.and_false]
    · have htb : Nat.testBit t j = false := by
        apply Nat.testBit_lt_two_pow
        calc t < 65536 := h1
          _ = 2 ^ 16 := by norm_num
          _ ≤ 2 ^ j := Nat.pow_le_pow_right (by norm_num) hj
      rw [htb, Bool.false_and]
  · rw [if_neg (Nat.not_lt.mpr h1)]
    obtain ⟨r, hr, rfl⟩ : ∃ r, r < 65536 ∧ t = 2 ^ 16 * 1 + r :=
      ⟨t - 65536, by omega, by norm_num; omega⟩
    apply Nat.eq_of_testBit_eq
    intro j
    have hr2 : r < 2 ^ 16 := by
      have : (2 : Nat) ^ 16 = 65536 := by norm_num
      omega
    have h65536 : (65536 : Nat) = 2 ^ 16 := by norm_num
    rw [Nat.testBit_and, Nat.testBit_mul_pow_two_add 1 hr2 j, hmask,
      Nat.testBit_mul_pow_two, h65536, Nat.testBit_two_pow]
    have h65535 : (65535 : Nat) = 2 ^ 16 - 1 := by norm_num
    rw [h65535, Nat.testBit_two_pow_sub_one]
    rcases lt_trichotomy j 16 with hj | hj | hj
    · rw [if_pos hj]
      have e1 : decide (j ≥ 16) = false := decide_eq_false (by omega)
      have e2 : decide (16 = j) = false := decide_eq_false (by omega)
      rw [e1, e2, Bool.false_and, Bool.and_false]
    · have e1 : decide (j ≥ 16) = true := decide_eq_true (by omega)
      have e2 : decide (16 = j) = true := decide_eq_true (by omega)
      have e3 : decide (j - 16 < 16) = true := decide_eq_true (by omega)
      have e4 : Nat.testBit 1 (j - 16) = true := by
        have hz : j - 16 = 0 := by omega
        rw [hz]
        decide
      rw [if_neg (by omega), e1, e2, e3, e4]
      simp
    · rw [if_neg (by omega)]
      have e1 : Nat.testBit 1 (j - 16) = false := by
        apply Nat.testBit_lt_two_pow
        have : 1 ≤ j - 16 := by omega
        calc (1 : Nat) < 2 ^ 1 := by norm_num
          _ ≤ 2 ^ (j - 16) := Nat.pow_le_pow_right (by norm_num) this
      have e2 : decide (16 = j) = false := decide_eq_false (by omega)
      rw [e1, e2, Bool.false_and]

lemma carry_fold_eq (t : Nat) (ht : t < 131072) :
    carry_fold t = if t < 65536 then t else t - 65535 := by
  unfold carry_fold
  rw [and_hi t ht, and_lo]
  rcases Nat.lt_or_ge t 65536 with h | h
  · rw [if_pos h, if_pos h, if_neg (by simp [h])]
  · rw [if_neg (Nat.not_lt.mpr h), if_neg (Nat.not_lt.mpr h),
      if_pos (by norm_num)]
    omega

lemma foldl_ocAdd_spec (l : List Nat) :
    ∀ s0 : Nat, (∀ b ∈ l, b < 256) → s0 ≤ 65535 →
      (l.foldl ocAdd s0) ≤ 65535
      ∧ Nat.ModEq 65535 (l.foldl ocAdd s0) (s0 + l.sum) := by
  induction l with
  | nil =>
    intro s0 _ hs
    exact ⟨hs, by simp [Nat.ModEq]⟩
  | cons b bs ih =>
    intro s0 hb hs
    have hb0 : b < 256 := hb b (List.mem_cons_self b bs)
    have hbs : ∀ x ∈ bs, x < 256 := fun x hx => hb x (List.mem_cons_of_mem b hx)
    have hstep : ocAdd s0 b = if s0 + b < 65536 then s0 + b else s0 + b - 65535 := by
      unfold ocAdd
      exact carry_fold_eq (s0 + b) (by omega)
    have h1 : ocAdd s0 b ≤ 65535 := by rw [hstep]; split <;> omega
    have h2 : Nat.ModEq 65535 (ocAdd s0 b) (s0 + b) := by
      rw [hstep]
      split
      · rfl
      · show (s0 + b - 65535) % 65535 = (s0 + b) % 65535
        omega
    have ih' := ih (ocAdd s0 b) hbs h1
    refine ⟨by simpa [List.foldl_cons] using ih'.1, ?_⟩
    have hsum : ocAdd s0 b + bs.sum ≡ s0 + b + bs.sum [MOD 65535] :=
      Nat.ModEq.add_right bs.sum h2
    have := (ih'.2).trans hsum
    rw [List.foldl_cons]
    have harr : s0 + b + bs.sum = s0 + (b :: bs).sum := by
      rw [List.sum_cons]; ring
    rw [harr] at this
    exact this

lemma append_ints_eq (s a : Nat) (ha : a < 256) : append_ints s a = 256 * s + a := by
  unfold append_ints
  have h1 : s <<< 8 = 2 ^ 8 * s := by
    rw [Nat.shiftLeft_eq]; ring
  have ha2 : a < 2 ^ 8 := by
    have : (2 : Nat) ^ 8 = 256 := by norm_num
    omega
  rw [h1, ← Nat.mul_add_lt_is_or ha2 s]

lemma calc_checksum_spec (pkt : Pkt) (hsq : pkt.seqnum < 256) (hak : pkt.acknum < 256)
    (hb : ∀ b ∈ pkt.payload, b < 256) :
    calc_checksum pkt
      = Int.neg ((((pkt.payload.take ((pkt.payload.length + 1) / 2)).foldl ocAdd
          (256 * pkt.seqnum + pkt.acknum) : Nat) : Int) + 1)
    ∧ (pkt.payload.take ((pkt.payload.length + 1) / 2)).foldl ocAdd
        (256 * pkt.seqnum + pkt.acknum) ≤ 65535
    ∧ Nat.ModEq 65535
        ((pkt.payload.take ((pkt.payload.length + 1) / 2)).foldl ocAdd
          (256 * pkt.seqnum + pkt.acknum))
        (256 * pkt.seqnum + pkt.acknum
          + (pkt.payload.take ((pkt.payload.length + 1) / 2)).sum) := by
  have hword : append_ints pkt.seqnum pkt.acknum = 256 * pkt.seqnum + pkt.acknum :=
    append_ints_eq _ _ hak
  have hwle : 256 * pkt.seqnum + pkt.acknum ≤ 65535 := by omega
  have hcf : carry_fold (append_ints pkt.seqnum pkt.acknum)
      = 256 * pkt.seqnum + pkt.acknum := by
    rw [hword, carry_fold_eq _ (by omega), if_pos (by omega)]
  have hbt : ∀ b ∈ pkt.payload.take ((pkt.payload.length + 1) / 2), b < 256 :=
    fun b hbm => hb b (List.take_subset _ _ hbm)
  have hfold := foldl_ocAdd_spec (pkt.payload.take ((pkt.payload.length + 1) / 2))
    (256 * pkt.seqnum + pkt.acknum) hbt hwle
  refine ⟨?_, hfold.1, hfold.2⟩
  have hget : calc_checksum pkt
      = Int.neg (((((pkt.payload.take ((pkt.payload.length + 1) / 2)).foldl ocAdd
          (carry_fold (append_ints pkt.seqnum pkt.acknum)) &&& 0xFFFF : Nat) : Int)) + 1) := rfl
  rw [hget, hcf, and_lo, Nat.mod_eq_of_lt (Nat.lt_succ_of_le hfold.1)]

lemma sum_set_add (l : List Nat) :
    ∀ (i : Nat) (b : Nat) (h : i < l.length),
      (l.set i b).sum + l.get ⟨i, h⟩ = l.sum + b := by
  induction l with
  | nil =>
    intro i b h
    simp at h
  | cons x xs ih =>
    intro i b h
    cases i with
    | zero =>
      simp [List.set]
      ring
    | succ n =>
      have hn : n < xs.length := by simpa using h
      have := ih n b hn
      simp only [List.set, List.sum_cons, List.get]
      omega

/-- The payload walk the specification describes: iterate the payload two
bytes at a time and keep the first byte of each pair. -/
def everyOtherByte : List Nat → List Nat
  | [] => []
  | [b] => [b]
  | b :: _ :: rest => b :: everyOtherByte rest

/-- The checksum as the specification's words describe it (refinement
comparison definition): fold the seqnum/acknum word, add the first byte of
each payload pair with end-around carry, and return the bitwise complement
of the final sum as a 16-bit unsigned value. -/
def claim_checksum (pkt : Pkt) : Nat :=
  let s0 := carry_fold (append_ints pkt.seqnum pkt.acknum)
  let s1 := (everyOtherByte pkt.payload).foldl ocAdd s0
  (s1 &&& 0xFFFF) ^^^ 0xFFFF

/-- C4 counterexample: on a packet whose payload has byte 18 set (a byte
the spec's "first byte of each pair" walk would add but the code's loop
never reaches), the code returns `-1` while the spec's described algorithm
yields the uint16 value `65534`; the returned value is also negative, not
a uint16. -/
theorem checksum_algorithm_counterexample :
    calc_checksum ⟨0, 0, 0, List.replicate 18 0 ++ [1, 0]⟩ = -1
    ∧ claim_checksum ⟨0, 0, 0, List.replicate 18 0 ++ [1, 0]⟩ = 65534
    ∧ calc_checksum ⟨0, 0, 0, List.replicate 18 0 ++ [1, 0]⟩
        ≠ (claim_checksum ⟨0, 0, 0, List.replicate 18 0 ++ [1, 0]⟩ : Int)
    ∧ ¬ (0 : Int) ≤ calc_checksum ⟨0, 0, 0, List.replicate 18 0 ++ [1, 0]⟩ := by
  decide

/-- C4 amended: `calc_checksum` returns the Python bitwise complement
`~S` — the negative integer `-(S+1)`, not a uint16 — of `S`, the 16-bit
end-around-carry sum of the word `256·seqnum + acknum` and the FIRST
`⌈len/2⌉` payload bytes taken consecutively (not the first byte of each
pair): `S ≤ 65535` and `S` is congruent mod `65535` to the plain sum of
the word and those bytes. -/
theorem checksum_algorithm (pkt : Pkt) (hsq : pkt.seqnum < 256)
    (hak : pkt.acknum < 256) (hb : ∀ b ∈ pkt.payload, b < 256) :
    ∃ S : Nat, S ≤ 65535
      ∧ calc_checksum pkt = Int.neg ((S : Int) + 1)
      ∧ Nat.ModEq 65535 S
          (256 * pkt.seqnum + pkt.acknum
            + (pkt.payload.take ((pkt.payload.length + 1) / 2)).sum) := by
  obtain ⟨h1, h2, h3⟩ := calc_checksum_spec pkt hsq hak hb
  exact ⟨_, h2, h1, h3⟩

/-- Witness for `checksum_algorithm` at a concrete two-byte packet. -/
theorem checksum_algorithm_witness :
    ∃ S : Nat, S ≤ 65535
      ∧ calc_checksum ⟨1, 2, 0, [3, 4]⟩ = Int.neg ((S : Int) + 1)
      ∧ Nat.ModEq 65535 S
          (256 * 1 + 2 + ([3, 4].take ((2 + 1) / 2) : List Nat).sum) :=
  checksum_algorithm ⟨1, 2, 0, [3, 4]⟩ (by decide) (by decide)
    (by intro b hb; simp at hb; omega)

/-- C3 counterexample: a single-bit flip in payload byte 10 (`0 → 1`) of a
20-byte payload is never detected: the checksum ignores the second half of
the payload, so verification still returns true. -/
theorem checksum_bitflip_counterexample :
    calc_checksum ⟨0, 0, 0, List.replicate 20 0⟩ = -1
    ∧ RcvTransport.check_rec (RcvTransport.init 8)
        ⟨0, 0, -1, List.replicate 10 0 ++ 1 :: List.replicate 9 0⟩ = true
    ∧ List.replicate 10 0 ++ 1 :: List.replicate 9 0 ≠ List.replicate 20 0 := by
  decide

/-- C3 amended: verification returns true immediately after the checksum
field is assigned from `calc_checksum`; the checksum depends only on
`seqnum`, `acknum` and the first `⌈len/2⌉` payload bytes, so any change
confined to the trailing payload bytes is NEVER detected; while any change
to a single summed payload byte, to a byte-sized `seqnum`, or to a
byte-sized `acknum` is ALWAYS detected (deterministically, not merely with
high probability). -/
theorem checksum_roundtrip_sensitivity :
    (∀ (r : RcvTransport) (s a : Nat) (c : Int) (pl : List Nat),
       r.check_rec ⟨s, a, calc_checksum ⟨s, a, c, pl⟩, pl⟩ = true)
    ∧ (∀ (s a : Nat) (c1 c2 : Int) (pl1 pl2 : List Nat),
       pl1.length = pl2.length →
       pl1.take ((pl1.length + 1) / 2) = pl2.take ((pl2.length + 1) / 2) →
       calc_checksum ⟨s, a, c1, pl1⟩ = calc_checksum ⟨s, a, c2, pl2⟩)
    ∧ (∀ (s a : Nat) (c : Int) (pl : List Nat) (i b' : Nat),
       s < 256 → a < 256 → (∀ b ∈ pl, b < 256) →
       ∀ hi : i < pl.length, i < (pl.length + 1) / 2 → b' < 256 →
       b' ≠ pl.get ⟨i, hi⟩ →
       calc_checksum ⟨s, a, c, pl.set i b'⟩ ≠ calc_checksum ⟨s, a, c, pl⟩)
    ∧ (∀ (s s' a : Nat) (c : Int) (pl : List Nat),
       s < 256 → s' < 256 → a < 256 → (∀ b ∈ pl, b < 256) → s' ≠ s →
       calc_checksum ⟨s', a, c, pl⟩ ≠ calc_checksum ⟨s, a, c, pl⟩)
    ∧ (∀ (s a a' : Nat) (c : Int) (pl : List Nat),
       s < 256 → a < 256 → a' < 256 → (∀ b ∈ pl, b < 256) → a' ≠ a →
       calc_checksum ⟨s, a', c, pl⟩ ≠ calc_checksum ⟨s, a, c, pl⟩) := by
  refine ⟨?_, ?_, ?_, ?_, ?_⟩
  · intro r s a c pl
    have heq : calc_checksum ⟨s, a, calc_checksum ⟨s, a, c, pl⟩, pl⟩
        = calc_checksum ⟨s, a, c, pl⟩ := rfl
    simp [RcvTransport.check_rec, heq]
  · intro s a c1 c2 pl1 pl2 hlen htake
    have h1 : calc_checksum ⟨s, a, c1, pl1⟩
        = Int.neg ((((pl1.take ((pl1.length + 1) / 2)).foldl ocAdd
            (carry_fold (append_ints s a)) &&& 0xFFFF : Nat) : Int) + 1) := rfl
    have h2 : calc_checksum ⟨s, a, c2, pl2⟩
        = Int.neg ((((pl2.take ((pl2.length + 1) / 2)).foldl ocAdd
            (carry_fold (append_ints s a)) &&& 0xFFFF : Nat) : Int) + 1) := rfl
    rw [h1, h2, htake]
  · intro s a c pl i b' hs256 ha256 hbpl hi hcnt hb' hne heq
    have hbset : ∀ x ∈ pl.set i b', x < 256 := by
      intro x hx
      rcases List.mem_or_eq_of_mem_set hx with h | h
      · exact hbpl x h
      · omega
    obtain ⟨e1, le1, m1⟩ := calc_checksum_spec ⟨s, a, c, pl.set i b'⟩ hs256 ha256 hbset
    obtain ⟨e2, le2, m2⟩ := calc_checksum_spec ⟨s, a, c, pl⟩ hs256 ha256 hbpl
    have e1' : calc_checksum ⟨s, a, c, pl.set i b'⟩
        = Int.neg ((((pl.set i b').take (((pl.set i b').length + 1) / 2)).foldl ocAdd
            (256 * s + a) : Nat) + 1 : Int) := e1
    have le1' : ((pl.set i b').take (((pl.set i b').length + 1) / 2)).foldl ocAdd
        (256 * s + a) ≤ 65535 := le1
    have m1' : (((pl.set i b').take (((pl.set i b').length + 1) / 2)).foldl ocAdd
          (256 * s + a)) % 65535
        = (256 * s + a
            + ((pl.set i b').take (((pl.set i b').length + 1) / 2)).sum) % 65535 := m1
    have e2' : calc_checksum ⟨s, a, c, pl⟩
        = Int.neg ((((pl.take ((pl.length + 1) / 2)).foldl ocAdd
            (256 * s + a) : Nat) + 1 : Int)) := e2
    have le2' : (pl.take ((pl.length + 1) / 2)).foldl ocAdd (256 * s + a) ≤ 65535 := le2
    have m2' : ((pl.take ((pl.length + 1) / 2)).foldl ocAdd (256 * s + a)) % 65535
        = (256 * s + a + (pl.take ((pl.length + 1) / 2)).sum) % 65535 := m2
    rw [List.length_set, List.set_take] at e1' le1' m1'
    rw [e1', e2'] at heq
    have h4 : -(((((pl.take ((pl.length + 1) / 2)).set i b').foldl ocAdd
          (256 * s + a) : Nat) : Int) + 1)
        = -((((pl.take ((pl.length + 1) / 2)).foldl ocAdd (256 * s + a) : Nat) : Int) + 1) :=
      heq
    have hS12 : ((pl.take ((pl.length + 1) / 2)).set i b').foldl ocAdd (256 * s + a)
        = (pl.take ((pl.length + 1) / 2)).foldl ocAdd (256 * s + a) := by
      omega
    have hitake : i < (pl.take ((pl.length + 1) / 2)).length := by
      rw [List.length_take]
      omega
    have hsumrel := sum_set_add (pl.take ((pl.length + 1) / 2)) i b' hitake
    have hgt : (pl.take ((pl.length + 1) / 2)).get ⟨i, hitake⟩ = pl.get ⟨i, hi⟩ := by
      rw [List.get_eq_getElem, List.get_eq_getElem]
      exact (List.getElem_take' pl hi hcnt).symm
    rw [hgt] at hsumrel
    have hx : pl.get ⟨i, hi⟩ < 256 := hbpl _ (List.get_mem pl i hi)
    omega
  · intro s s' a c pl hs hs' ha hb hne heq
    obtain ⟨e1, le1, m1⟩ := calc_checksum_spec ⟨s', a, c, pl⟩ hs' ha hb
    obtain ⟨e2, le2, m2⟩ := calc_checksum_spec ⟨s, a, c, pl⟩ hs ha hb
    have e1' : calc_checksum ⟨s', a, c, pl⟩
        = Int.neg ((((pl.take ((pl.length + 1) / 2)).foldl ocAdd
            (256 * s' + a) : Nat) + 1 : Int)) := e1
    have m1' : ((pl.take ((pl.length + 1) / 2)).foldl ocAdd (256 * s' + a)) % 65535
        = (256 * s' + a + (pl.take ((pl.length + 1) / 2)).sum) % 65535 := m1
    have e2' : calc_checksum ⟨s, a, c, pl⟩
        = Int.neg ((((pl.take ((pl.length + 1) / 2)).foldl ocAdd
            (256 * s + a) : Nat) + 1 : Int)) := e2
    have m2' : ((pl.take ((pl.length + 1) / 2)).foldl ocAdd (256 * s + a)) % 65535
        = (256 * s + a + (pl.take ((pl.length + 1) / 2)).sum) % 65535 := m2
    rw [e1', e2'] at heq
    have h4 : -((((pl.take ((pl.length + 1) / 2)).foldl ocAdd (256 * s' + a) : Nat) : Int) + 1)
        = -((((pl.take ((pl.length + 1) / 2)).foldl ocAdd (256 * s + a) : Nat) : Int) + 1) :=
      heq
    omega
  · intro s a a' c pl hs ha ha' hb hne heq
    obtain ⟨e1, le1, m1⟩ := calc_checksum_spec ⟨s, a', c, pl⟩ hs ha' hb
    obtain ⟨e2, le2, m2⟩ := calc_checksum_spec ⟨s, a, c, pl⟩ hs ha hb
    have e1' : calc_checksum ⟨s, a', c, pl⟩
        = Int.neg ((((pl.take ((pl.length + 1) / 2)).foldl ocAdd
            (256 * s + a') : Nat) + 1 : Int)) := e1
    have m1' : ((pl.take ((pl.length + 1) / 2)).foldl ocAdd (256 * s + a')) % 65535
        = (256 * s + a' + (pl.take ((pl.length + 1) / 2)).sum) % 65535 := m1
    have e2' : calc_checksum ⟨s, a, c, pl⟩
        = Int.neg ((((pl.take ((pl.length + 1) / 2)).foldl ocAdd
            (256 * s + a) : Nat) + 1 : Int)) := e2
    have m2' : ((pl.take ((pl.length + 1) / 2)).foldl ocAdd (256 * s + a)) % 65535
        = (256 * s + a + (pl.take ((pl.length + 1) / 2)).sum) % 65535 := m2
    rw [e1', e2'] at heq
    have h4 : -((((pl.take ((pl.length + 1) / 2)).foldl ocAdd (256 * s + a') : Nat) : Int) + 1)
        = -((((pl.take ((pl.length + 1) / 2)).foldl ocAdd (256 * s + a) : Nat) : Int) + 1) :=
      heq
    omega

/-- Witness for `checksum_roundtrip_sensitivity`: concrete round-trip and a
concrete detected first-half byte change. -/
theorem checksum_roundtrip_sensitivity_witness :
    RcvTransport.check_rec (RcvTransport.init 8)
      ⟨3, 4, calc_checksum ⟨3, 4, 0, [7, 8]⟩, [7, 8]⟩ = true
    ∧ calc_checksum ⟨3, 4, 0, ([7, 8] : List Nat).set 0 9⟩
        ≠ calc_checksum ⟨3, 4, 0, [7, 8]⟩ :=
  ⟨checksum_roundtrip_sensitivity.1 (RcvTransport.init 8) 3 4 0 [7, 8],
   checksum_roundtrip_sensitivity.2.2.1 3 4 0 [7, 8] 0 9 (by decide) (by decide)
     (by intro b hb; simp at hb; omega) (by decide) (by decide) (by decide)
     (by decide)⟩
